import Mathlib

/-!
Verification of the killer-game backend (`src/app.py`).

The backend is a small Flask app with four JSON endpoints over three flat
JSON files.  We shallowly embed the pure content of each request handler:

* `normalize` models the `normalize` utility (unicodedata NFD, drop of
  combining marks, `.lower()`, `.strip()`).  The Unicode tables are modelled
  over a finite repertoire: ASCII plus the precomposed accented Latin
  letters used in French, with the combining diacritical marks block
  U+0300–U+036F standing for category Mn; characters outside the repertoire
  decompose to themselves and are case-fixed, which matches Unicode for
  every character the application's data can contain.
* The persisted `state.json` object is a key/value list `GameState` in
  insertion order, with `stateLookup` / `stateSet` / `ensure_player_state`
  mirroring Python dict access, in-place entry mutation and lazy creation.
* Each endpoint is a function from the parsed request and the loaded files
  to a response value and the state that gets saved back.
-/

namespace App

/-- Combining diacritical marks block, the model of
`unicodedata.category(c) == "Mn"` for the repertoire. -/
def isMn (c : Char) : Bool :=
  decide (0x300 ≤ c.toNat) && decide (c.toNat ≤ 0x36F)

/-- Whitespace as stripped by `str.strip()` (ASCII part of the Python
definition). -/
def isSpaceM (c : Char) : Bool :=
  c == ' ' || c == '\t' || c == '\n' || c == '\r' ||
  decide (c.toNat = 0x0B) || decide (c.toNat = 0x0C)

/-- Association lookup on a char-keyed table (first match). -/
def tlookup {α : Type} (l : List (Char × α)) (c : Char) : Option α :=
  match l with
  | [] => none
  | (k, v) :: rest => if k = c then some v else tlookup rest c

/-- Canonical (NFD) decompositions, modelling `unicodedata.normalize("NFD", ·)`
character by character, for the precomposed accented Latin letters of the
application's repertoire. -/
def nfdTable : List (Char × List Char) :=
  [('À', ['A', '\u0300']), ('Â', ['A', '\u0302']), ('Ä', ['A', '\u0308']),
   ('Ç', ['C', '\u0327']), ('È', ['E', '\u0300']), ('É', ['E', '\u0301']),
   ('Ê', ['E', '\u0302']), ('Ë', ['E', '\u0308']), ('Î', ['I', '\u0302']),
   ('Ï', ['I', '\u0308']), ('Ô', ['O', '\u0302']), ('Ö', ['O', '\u0308']),
   ('Ù', ['U', '\u0300']), ('Û', ['U', '\u0302']), ('Ü', ['U', '\u0308']),
   ('à', ['a', '\u0300']), ('â', ['a', '\u0302']), ('ä', ['a', '\u0308']),
   ('ç', ['c', '\u0327']), ('è', ['e', '\u0300']), ('é', ['e', '\u0301']),
   ('ê', ['e', '\u0302']), ('ë', ['e', '\u0308']), ('î', ['i', '\u0302']),
   ('ï', ['i', '\u0308']), ('ô', ['o', '\u0302']), ('ö', ['o', '\u0308']),
   ('ù', ['u', '\u0300']), ('û', ['u', '\u0302']), ('ü', ['u', '\u0308'])]

/-- NFD decomposition of one character. -/
def nfd1 (c : Char) : List Char :=
  (tlookup nfdTable c).getD [c]

/-- Lowercasing table modelling `str.lower()` on the repertoire: ASCII
letters plus the precomposed accented capitals. -/
def lowerTable : List (Char × Char) :=
  [('A', 'a'), ('B', 'b'), ('C', 'c'), ('D', 'd'), ('E', 'e'), ('F', 'f'),
   ('G', 'g'), ('H', 'h'), ('I', 'i'), ('J', 'j'), ('K', 'k'), ('L', 'l'),
   ('M', 'm'), ('N', 'n'), ('O', 'o'), ('P', 'p'), ('Q', 'q'), ('R', 'r'),
   ('S', 's'), ('T', 't'), ('U', 'u'), ('V', 'v'), ('W', 'w'), ('X', 'x'),
   ('Y', 'y'), ('Z', 'z'),
   ('À', 'à'), ('Â', 'â'), ('Ä', 'ä'), ('Ç', 'ç'), ('È', 'è'), ('É', 'é'),
   ('Ê', 'ê'), ('Ë', 'ë'), ('Î', 'î'), ('Ï', 'ï'), ('Ô', 'ô'), ('Ö', 'ö'),
   ('Ù', 'ù'), ('Û', 'û'), ('Ü', 'ü')]

/-- Lowercasing of one character. -/
def toLowerM (c : Char) : Char :=
  (tlookup lowerTable c).getD c

/-- NFD, drop of combining marks, lowercasing: the character pipeline of
`normalize` before the final strip. -/
def normPipe (l : List Char) : List Char :=
  ((l.flatMap nfd1).filter (fun c => isMn c = false)).map toLowerM

/-- `str.strip()`: drop whitespace from both ends. -/
def stripList (l : List Char) : List Char :=
  (((l.dropWhile isSpaceM).reverse.dropWhile isSpaceM)).reverse

/-- Model of `normalize` (src/app.py lines 28–34): empty for falsy input,
otherwise NFD-decompose, drop category-Mn characters, lowercase, strip. -/
def normalize (text : String) : String :=
  if text = "" then ""
  else String.mk (stripList (normPipe text.data))

-- -------------------------------------------------------------------
-- State model
-- -------------------------------------------------------------------

/-- A stored guess object, as written by `submit_guess`. -/
structure Guess where
  killer_id : String
  killer_display : String
  mission : String
deriving DecidableEq, Repr

/-- One player's entry in `state.json`, as created by `ensure_player_state`. -/
structure PlayerState where
  mission_done : Bool
  guess : Option Guess
  points : Int
  discovered_by_target : Bool
deriving DecidableEq, Repr

/-- The default entry created by `ensure_player_state`. -/
def defaultPlayerState : PlayerState :=
  ⟨false, none, 0, false⟩

/-- The `state.json` object: a string-keyed dict in insertion order. -/
abbrev GameState := List (String × PlayerState)

/-- Python dict read `state[k]` / `state.get(k)`: first matching key. -/
def stateLookup (st : GameState) (key : String) : Option PlayerState :=
  match st with
  | [] => none
  | (k, v) :: rest => if k = key then some v else stateLookup rest key

/-- In-place mutation of an existing entry (`entry["f"] = x` on the dict
value returned for `key`); a missing key leaves the dict unchanged. -/
def stateSet (st : GameState) (key : String) (v : PlayerState) : GameState :=
  match st with
  | [] => []
  | (k, w) :: rest =>
      if k = key then (k, v) :: rest else (k, w) :: stateSet rest key v

/-- Model of `ensure_player_state` (src/app.py lines 50–59): create the
default entry if absent.  Python inserts at the end of the dict. -/
def ensure_player_state (st : GameState) (player_id : String) : GameState :=
  if (stateLookup st player_id).isSome then st
  else st ++ [(player_id, defaultPlayerState)]

/-- Python truthiness of an optional string: `None` and `""` are falsy. -/
def pyTruthy (s : Option String) : Bool :=
  match s with
  | none => false
  | some t => decide (t ≠ "")

/-- Python `a or b` on optional strings, as in
`data.get("player_id") or data.get("player_display")`. -/
def pyOr (a b : Option String) : Option String :=
  if pyTruthy a then a else b

-- -------------------------------------------------------------------
-- Endpoints
-- -------------------------------------------------------------------

/-- An assignment record from `assignments.json`.  Per the data model a
record pairs a killer name with a mission and a target; `mission` and
`target` may be absent (the code reads them with `.get(·, "—")`). -/
structure Assignment where
  killer : String
  mission : Option String
  target : Option String
deriving DecidableEq, Repr

/-- Response of `GET /api/mission`. -/
inductive MissionResp where
  | badRequest (error : String)
  | notFound (error : String)
  | ok (playerId playerDisplay missionText targetDisplay : String)
       (missionDone : Bool)
deriving DecidableEq, Repr

/-- Model of `get_mission` (src/app.py lines 87–114): the response together
with the state saved to `state.json` (unchanged when nothing is saved). -/
def get_mission (player : Option String) (assignments : List Assignment)
    (st : GameState) : MissionResp × GameState :=
  if pyTruthy player = false then
    (.badRequest "Missing player parameter", st)
  else
    let norm_input := normalize (player.getD "")
    match assignments.find? (fun a => normalize a.killer == norm_input) with
    | some a =>
        let st1 := ensure_player_state st a.killer
        let player_state := (stateLookup st1 a.killer).getD defaultPlayerState
        (.ok a.killer a.killer (a.mission.getD "—") (a.target.getD "—")
          player_state.mission_done, st1)
    | none => (.notFound "Player not found", st)

/-- Body of `POST /api/mission_done`. -/
structure DoneReq where
  player_id : Option String
  player_display : Option String

/-- Response of `POST /api/mission_done`. -/
inductive DoneResp where
  | badRequest (error : String)
  | ok (missionDone : Bool)
deriving DecidableEq, Repr

/-- Model of `mission_done` (src/app.py lines 123–137). -/
def mission_done (req : DoneReq) (st : GameState) : DoneResp × GameState :=
  let pid? := pyOr req.player_id req.player_display
  if pyTruthy pid? = false then
    (.badRequest "Missing player_id", st)
  else
    let pid := pid?.getD ""
    let st1 := ensure_player_state st pid
    let entry := (stateLookup st1 pid).getD defaultPlayerState
    (.ok true, stateSet st1 pid { entry with mission_done := true })

/-- Body of `POST /api/guess`. -/
structure GuessReq where
  player_id : Option String
  player_display : Option String
  accused_killer_id : Option String
  accused_killer_display : Option String
  guessed_mission : Option String

/-- Response of `POST /api/guess`. -/
inductive GuessResp where
  | badRequest (error : String)
  | success
deriving DecidableEq, Repr

/-- Model of `submit_guess` (src/app.py lines 150–175). -/
def submit_guess (req : GuessReq) (st : GameState) : GuessResp × GameState :=
  let pid? := pyOr req.player_id req.player_display
  let acc? := pyOr req.accused_killer_id req.accused_killer_display
  let gm? := req.guessed_mission
  if pyTruthy pid? = false then
    (.badRequest "Missing player_id", st)
  else if pyTruthy acc? = false then
    (.badRequest "Missing accused_killer_id", st)
  else if pyTruthy gm? = false then
    (.badRequest "Missing guessed_mission", st)
  else
    let pid := pid?.getD ""
    let acc := acc?.getD ""
    let gm := gm?.getD ""
    let st1 := ensure_player_state st pid
    let entry := (stateLookup st1 pid).getD defaultPlayerState
    (.success, stateSet st1 pid { entry with guess := some ⟨acc, acc, gm⟩ })

/-- A record of `players.json` as read by `leaderboard`: only the `id`
field is consulted, with `p.get("id")` possibly absent. -/
structure PlayerRec where
  id : Option String
deriving DecidableEq, Repr

/-- One row of the leaderboard response. -/
structure Row where
  display : String
  points : Int
  mission_done : Bool
  discovered_by_target : Bool
  found_killer : Bool
  guess_killer_display : Option String
  guess_mission : Option String
deriving DecidableEq, Repr

/-- The row built for one player name; `state.get(name)` with the
per-field `.get` defaults collapses to the stored entry when present and to
the defaults otherwise. -/
def rowFor (st : GameState) (name : String) : Row :=
  match stateLookup st name with
  | none => ⟨name, 0, false, false, false, none, none⟩
  | some s =>
      ⟨name, s.points, s.mission_done, s.discovered_by_target,
       s.guess.isSome, s.guess.map Guess.killer_display,
       s.guess.map Guess.mission⟩

/-- Model of `leaderboard` (src/app.py lines 183–207): players whose `id`
is absent or falsy are skipped (`continue`). -/
def leaderboard (players : List PlayerRec) (st : GameState) : List Row :=
  players.filterMap (fun p =>
    match p.id with
    | none => none
    | some name => if name = "" then none else some (rowFor st name))

-- -------------------------------------------------------------------
-- Helper lemmas: normalization
-- -------------------------------------------------------------------

/-- A character left fixed by the whole pipeline: no decomposition, not a
combining mark, already lowercase. -/
def stableChar (c : Char) : Bool :=
  (nfd1 c == [c]) && !isMn c && (toLowerM c == c)

theorem tlookup_mem {α : Type} {l : List (Char × α)} {c : Char} {v : α}
    (h : tlookup l c = some v) : (c, v) ∈ l := by
  induction l with
  | nil => simp [tlookup] at h
  | cons p rest ih =>
      obtain ⟨k, w⟩ := p
      by_cases hk : k = c
      · subst hk
        simp [tlookup] at h
        simp [h]
      · simp [tlookup, hk] at h
        exact List.mem_cons_of_mem _ (ih h)

theorem stableChar_spec {c : Char} (h : stableChar c = true) :
    nfd1 c = [c] ∧ isMn c = false ∧ toLowerM c = c := by
  simp [stableChar] at h
  exact ⟨h.1.1, h.1.2, h.2⟩

theorem nfdTable_stable :
    ∀ p ∈ nfdTable, ∀ d ∈ p.2, isMn d = true ∨ stableChar (toLowerM d) = true := by
  decide

theorem lowerTable_stable :
    ∀ p ∈ lowerTable, (tlookup nfdTable p.1).isSome = true ∨ stableChar p.2 = true := by
  decide

theorem stableChar_toLowerM {c d : Char} (hd : d ∈ nfd1 c) (hMn : isMn d = false) :
    stableChar (toLowerM d) = true := by
  cases h : tlookup nfdTable c with
  | some l =>
      have hm : (c, l) ∈ nfdTable := tlookup_mem h
      rcases nfdTable_stable (c, l) hm d (by simpa [nfd1, h] using hd) with h1 | h1
      · rw [hMn] at h1; cases h1
      · exact h1
  | none =>
      have hdc : d = c := by simpa [nfd1, h] using hd
      subst hdc
      cases h2 : tlookup lowerTable d with
      | some y =>
          have hm : (d, y) ∈ lowerTable := tlookup_mem h2
          rcases lowerTable_stable (d, y) hm with h1 | h1
          · rw [h] at h1; cases h1
          · simpa [toLowerM, h2] using h1
      | none =>
          have ht : toLowerM d = d := by simp [toLowerM, h2]
          rw [ht]
          simp [stableChar, nfd1, h, ht, hMn]

theorem normPipe_eq_self {l : List Char} (h : ∀ c ∈ l, stableChar c = true) :
    normPipe l = l := by
  induction l with
  | nil => rfl
  | cons c t ih =>
      obtain ⟨h1, h2, h3⟩ := stableChar_spec (h c (List.mem_cons_self c t))
      have ht := ih (fun x hx => h x (List.mem_cons_of_mem _ hx))
      have key : normPipe (c :: t) = toLowerM c :: normPipe t := by
        simp only [normPipe, List.flatMap_cons, h1, List.filter_append,
          List.map_append]
        simp [h2]
      rw [key, h3, ht]

theorem mem_normPipe_stable {l : List Char} {d : Char} (hd : d ∈ normPipe l) :
    stableChar d = true := by
  simp only [normPipe, List.mem_map, List.mem_filter, List.mem_flatMap] at hd
  obtain ⟨e, ⟨⟨c, _, he⟩, hMn⟩, rfl⟩ := hd
  exact stableChar_toLowerM he (by simpa using hMn)

theorem mem_stripList {l : List Char} {d : Char} (hd : d ∈ stripList l) : d ∈ l := by
  have h1 : d ∈ (l.dropWhile isSpaceM).reverse.dropWhile isSpaceM :=
    List.mem_reverse.mp hd
  have h2 : d ∈ (l.dropWhile isSpaceM).reverse :=
    (List.dropWhile_suffix isSpaceM).subset h1
  exact (List.dropWhile_suffix isSpaceM).subset (List.mem_reverse.mp h2)

theorem dropWhile_dropWhile_self {α : Type} (p : α → Bool) (l : List α) :
    (l.dropWhile p).dropWhile p = l.dropWhile p := by
  induction l with
  | nil => rfl
  | cons a t ih =>
      by_cases hpa : p a
      · rw [List.dropWhile_cons_of_pos hpa]; exact ih
      · rw [List.dropWhile_cons_of_neg hpa, List.dropWhile_cons_of_neg hpa]

theorem dropWhile_eq_self_mono {α : Type} {p : α → Bool} {l m : List α}
    (hpre : m <+: l) (hl : l.dropWhile p = l) : m.dropWhile p = m := by
  cases m with
  | nil => rfl
  | cons a t =>
      obtain ⟨r, hr⟩ := hpre
      rw [← hr, List.cons_append] at hl
      by_cases hpa : p a
      · exfalso
        rw [List.dropWhile_cons_of_pos hpa] at hl
        have h2 := (List.dropWhile_suffix (l := t ++ r) p).length_le
        rw [hl] at h2
        simp at h2
      · exact List.dropWhile_cons_of_neg hpa

theorem stripList_idem (l : List Char) : stripList (stripList l) = stripList l := by
  have hA : stripList l <+: l.dropWhile isSpaceM := by
    have h1 := List.dropWhile_suffix (l := (l.dropWhile isSpaceM).reverse) isSpaceM
    have h2 := h1.reverse
    rwa [List.reverse_reverse] at h2
  have hLT : (stripList l).dropWhile isSpaceM = stripList l :=
    dropWhile_eq_self_mono hA (dropWhile_dropWhile_self isSpaceM l)
  show (((stripList l).dropWhile isSpaceM).reverse.dropWhile isSpaceM).reverse
        = stripList l
  rw [hLT]
  have hrev : (stripList l).reverse = (l.dropWhile isSpaceM).reverse.dropWhile isSpaceM := by
    show ((((l.dropWhile isSpaceM).reverse).dropWhile isSpaceM).reverse).reverse = _
    rw [List.reverse_reverse]
  rw [hrev, dropWhile_dropWhile_self]
  rfl

theorem normalize_data (s : String) (h : s ≠ "") :
    normalize s = String.mk (stripList (normPipe s.data)) := by
  simp [normalize, h]

-- -------------------------------------------------------------------
-- Helper lemmas: state dictionary
-- -------------------------------------------------------------------

theorem stateLookup_append (l1 l2 : GameState) (k : String) :
    stateLookup (l1 ++ l2) k =
      match stateLookup l1 k with
      | some v => some v
      | none => stateLookup l2 k := by
  induction l1 with
  | nil => simp [stateLookup]
  | cons p rest ih =>
      obtain ⟨k1, v1⟩ := p
      by_cases hk : k1 = k
      · simp [stateLookup, hk]
      · simp [stateLookup, hk, ih]

theorem stateLookup_set_self {st : GameState} {k : String} {w : PlayerState}
    (v : PlayerState) (h : stateLookup st k = some w) :
    stateLookup (stateSet st k v) k = some v := by
  induction st with
  | nil => simp [stateLookup] at h
  | cons p rest ih =>
      obtain ⟨k1, v1⟩ := p
      by_cases hk : k1 = k
      · simp [stateSet, stateLookup, hk]
      · simp [stateSet, stateLookup, hk] at h ⊢
        exact ih h

theorem stateLookup_set_other (st : GameState) (k k2 : String) (v : PlayerState)
    (h : k2 ≠ k) : stateLookup (stateSet st k v) k2 = stateLookup st k2 := by
  induction st with
  | nil => rfl
  | cons p rest ih =>
      obtain ⟨k1, v1⟩ := p
      by_cases hk : k1 = k
      · subst hk
        simp [stateSet, stateLookup, Ne.symm h]
      · by_cases hk2 : k1 = k2
        · simp [stateSet, stateLookup, hk, hk2, h]
        · simp [stateSet, stateLookup, hk, hk2, ih]

theorem stateSet_self {st : GameState} {k : String} {v : PlayerState}
    (h : stateLookup st k = some v) : stateSet st k v = st := by
  induction st with
  | nil => rfl
  | cons p rest ih =>
      obtain ⟨k1, v1⟩ := p
      by_cases hk : k1 = k
      · simp [stateLookup, hk] at h
        simp [stateSet, hk, h]
      · simp [stateLookup, hk] at h
        simp [stateSet, hk, ih h]

theorem stateLookup_ensure_self (st : GameState) (k : String) :
    stateLookup (ensure_player_state st k) k =
      some ((stateLookup st k).getD defaultPlayerState) := by
  cases h : stateLookup st k with
  | some v => simp [ensure_player_state, h]
  | none =>
      simp only [ensure_player_state, h, Option.isSome_none, Bool.false_eq_true,
        if_false, Option.getD_none]
      rw [stateLookup_append]
      simp [h, stateLookup]

theorem stateLookup_ensure_other (st : GameState) (k k2 : String) (h : k2 ≠ k) :
    stateLookup (ensure_player_state st k) k2 = stateLookup st k2 := by
  by_cases hs : (stateLookup st k).isSome
  · simp [ensure_player_state, hs]
  · rw [ensure_player_state, if_neg hs, stateLookup_append]
    cases h2 : stateLookup st k2 with
    | some v => rfl
    | none => simp [stateLookup, Ne.symm h]

theorem ensure_of_isSome {st : GameState} {k : String}
    (h : (stateLookup st k).isSome = true) : ensure_player_state st k = st := by
  simp [ensure_player_state, h]

-- -------------------------------------------------------------------
-- Helper lemmas: endpoints
-- -------------------------------------------------------------------

theorem mission_done_eq (req : DoneReq) (st : GameState)
    (h : pyTruthy (pyOr req.player_id req.player_display) = true) :
    mission_done req st =
      (.ok true,
       stateSet
         (ensure_player_state st ((pyOr req.player_id req.player_display).getD ""))
         ((pyOr req.player_id req.player_display).getD "")
         { (stateLookup st ((pyOr req.player_id req.player_display).getD "")).getD
             defaultPlayerState with mission_done := true }) := by
  simp [mission_done, h, stateLookup_ensure_self]

theorem submit_guess_eq (req : GuessReq) (st : GameState)
    (hp : pyTruthy (pyOr req.player_id req.player_display) = true)
    (ha : pyTruthy (pyOr req.accused_killer_id req.accused_killer_display) = true)
    (hm : pyTruthy req.guessed_mission = true) :
    submit_guess req st =
      (.success,
       stateSet
         (ensure_player_state st ((pyOr req.player_id req.player_display).getD ""))
         ((pyOr req.player_id req.player_display).getD "")
         { (stateLookup st ((pyOr req.player_id req.player_display).getD "")).getD
             defaultPlayerState with
           guess := some
             ⟨(pyOr req.accused_killer_id req.accused_killer_display).getD "",
              (pyOr req.accused_killer_id req.accused_killer_display).getD "",
              req.guessed_mission.getD ""⟩ }) := by
  simp [submit_guess, hp, ha, hm, stateLookup_ensure_self]

theorem mission_done_lookup (p1 p2 : Option String) (st : GameState)
    (hp : pyTruthy (pyOr p1 p2) = true) :
    stateLookup (mission_done ⟨p1, p2⟩ st).2 ((pyOr p1 p2).getD "") =
      some { (stateLookup st ((pyOr p1 p2).getD "")).getD defaultPlayerState
             with mission_done := true } := by
  rw [mission_done_eq ⟨p1, p2⟩ st hp]
  exact stateLookup_set_self _ (stateLookup_ensure_self _ _)

theorem submit_guess_lookup (p1 p2 a1 a2 g : Option String) (st : GameState)
    (hp : pyTruthy (pyOr p1 p2) = true) (ha : pyTruthy (pyOr a1 a2) = true)
    (hm : pyTruthy g = true) :
    stateLookup (submit_guess ⟨p1, p2, a1, a2, g⟩ st).2 ((pyOr p1 p2).getD "") =
      some { (stateLookup st ((pyOr p1 p2).getD "")).getD defaultPlayerState
             with guess := some (Guess.mk ((pyOr a1 a2).getD "")
               ((pyOr a1 a2).getD "") (g.getD "")) } := by
  rw [submit_guess_eq ⟨p1, p2, a1, a2, g⟩ st hp ha hm]
  exact stateLookup_set_self _ (stateLookup_ensure_self _ _)

-- -------------------------------------------------------------------
-- Claims
-- -------------------------------------------------------------------

/-- C4: the name normalization is idempotent:
`normalize (normalize s) = normalize s` for every string. -/
theorem normalize_idempotent (s : String) :
    normalize (normalize s) = normalize s := by
  by_cases h : s = ""
  · subst h; rfl
  · by_cases h2 : normalize s = ""
    · rw [h2]; rfl
    · have hd : (normalize s).data = stripList (normPipe s.data) := by
        rw [normalize_data s h]
      have hstable : ∀ c ∈ (normalize s).data, stableChar c = true := by
        intro c hc
        rw [hd] at hc
        exact mem_normPipe_stable (mem_stripList hc)
      calc normalize (normalize s)
          = String.mk (stripList (normPipe (normalize s).data)) :=
            normalize_data _ h2
        _ = String.mk (stripList ((normalize s).data)) := by
            rw [normPipe_eq_self hstable]
        _ = String.mk (stripList (stripList (normPipe s.data))) := by rw [hd]
        _ = String.mk (stripList (normPipe s.data)) := by rw [stripList_idem]
        _ = normalize s := (normalize_data s h).symm

/-- C8: `normalize` maps the empty (falsy) string to the empty string and
otherwise returns a lowercase, accent-stripped, trimmed string; accents are
stripped (`normalize "Élodie" = "elodie"`) and case-insensitive equality
holds (`normalize "BOB" = normalize "bob"`). -/
theorem normalize_output_form (s : String) :
    normalize "" = "" ∧
    normalize "Élodie" = "elodie" ∧
    normalize "BOB" = normalize "bob" ∧
    (∀ c ∈ (normalize s).data, toLowerM c = c ∧ isMn c = false ∧ nfd1 c = [c]) ∧
    stripList ((normalize s).data) = (normalize s).data := by
  have hstable : ∀ c ∈ (normalize s).data, stableChar c = true := by
    by_cases h : s = ""
    · subst h; intro c hc; simp [normalize] at hc
    · intro c hc
      rw [normalize_data s h] at hc
      exact mem_normPipe_stable (mem_stripList hc)
  refine ⟨rfl, rfl, rfl, ?_, ?_⟩
  · intro c hc
    obtain ⟨h1, h2, h3⟩ := stableChar_spec (hstable c hc)
    exact ⟨h3, h2, h1⟩
  · by_cases h : s = ""
    · subst h; rfl
    · rw [normalize_data s h]
      exact stripList_idem _

/-- Witness for C8 at a concrete input. -/
theorem normalize_output_form_witness :
    toLowerM 'b' = 'b' ∧ normalize "Élodie" = "elodie" := by
  have h := normalize_output_form " Bob "
  exact ⟨(h.2.2.2.1 'b' (by decide)).1, h.2.1⟩

/-- C7: `GET /api/mission` with the player parameter absent or empty
returns the structured missing-parameter error and leaves the persisted
state unchanged. -/
theorem get_mission_missing_param (assignments : List Assignment)
    (st : GameState) :
    get_mission none assignments st =
      (.badRequest "Missing player parameter", st) ∧
    get_mission (some "") assignments st =
      (.badRequest "Missing player parameter", st) := by
  constructor <;> rfl

/-- C2: `POST /api/guess` succeeds exactly when the player identifier, the
accused-killer identifier and the guessed mission are all present and
non-empty; otherwise it fails naming the first missing field in the order
player, accused killer, guessed mission. -/
theorem submit_guess_validation (req : GuessReq) (st : GameState) :
    ((submit_guess req st).1 = .success ↔
      (pyTruthy (pyOr req.player_id req.player_display) = true ∧
       pyTruthy (pyOr req.accused_killer_id req.accused_killer_display) = true ∧
       pyTruthy req.guessed_mission = true)) ∧
    (pyTruthy (pyOr req.player_id req.player_display) = false →
      submit_guess req st = (.badRequest "Missing player_id", st)) ∧
    (pyTruthy (pyOr req.player_id req.player_display) = true →
     pyTruthy (pyOr req.accused_killer_id req.accused_killer_display) = false →
      submit_guess req st = (.badRequest "Missing accused_killer_id", st)) ∧
    (pyTruthy (pyOr req.player_id req.player_display) = true →
     pyTruthy (pyOr req.accused_killer_id req.accused_killer_display) = true →
     pyTruthy req.guessed_mission = false →
      submit_guess req st = (.badRequest "Missing guessed_mission", st)) := by
  cases hp : pyTruthy (pyOr req.player_id req.player_display) <;>
    cases ha : pyTruthy (pyOr req.accused_killer_id req.accused_killer_display) <;>
      cases hm : pyTruthy req.guessed_mission <;>
        simp [submit_guess, hp, ha, hm]

/-- Witness for C2: a request with no player identifier is rejected with
the player_id message. -/
theorem submit_guess_validation_witness :
    submit_guess ⟨none, none, some "k", none, some "m"⟩ [] =
      (.badRequest "Missing player_id", []) :=
  (submit_guess_validation ⟨none, none, some "k", none, some "m"⟩ []).2.1
    (by decide)

/-- C5: `POST /api/mission_done` with a non-empty player identifier
answers ok with mission_done true, persists the flag, and is idempotent:
a second call returns the same answer and leaves the state exactly as
after the first call. -/
theorem mission_done_idempotent (req : DoneReq) (st : GameState)
    (h : pyTruthy (pyOr req.player_id req.player_display) = true) :
    (mission_done req st).1 = .ok true ∧
    (∃ e, stateLookup (mission_done req st).2
        ((pyOr req.player_id req.player_display).getD "") = some e ∧
      e.mission_done = true) ∧
    mission_done req (mission_done req st).2 =
      (.ok true, (mission_done req st).2) := by
  have e1 := mission_done_eq req st h
  refine ⟨by rw [e1], ?_, ?_⟩
  · rw [e1]
    exact ⟨_, stateLookup_set_self _ (stateLookup_ensure_self st _), rfl⟩
  · rw [e1]
    have hl2 := stateLookup_set_self
      { (stateLookup st ((pyOr req.player_id req.player_display).getD "")).getD
          defaultPlayerState with mission_done := true }
      (stateLookup_ensure_self st ((pyOr req.player_id req.player_display).getD ""))
    have e2 := mission_done_eq req
      (stateSet
        (ensure_player_state st ((pyOr req.player_id req.player_display).getD ""))
        ((pyOr req.player_id req.player_display).getD "")
        { (stateLookup st ((pyOr req.player_id req.player_display).getD "")).getD
            defaultPlayerState with mission_done := true }) h
    rw [e2, ensure_of_isSome (by rw [hl2]; rfl), hl2]
    exact congrArg _ (stateSet_self hl2)

/-- Witness for C5 at a concrete player. -/
theorem mission_done_idempotent_witness :
    (mission_done ⟨some "bob", none⟩ []).1 = .ok true ∧
    mission_done ⟨some "bob", none⟩ (mission_done ⟨some "bob", none⟩ []).2 =
      (.ok true, (mission_done ⟨some "bob", none⟩ []).2) := by
  have h := mission_done_idempotent ⟨some "bob", none⟩ [] (by decide)
  exact ⟨h.1, h.2.2⟩

/-- The state after a sequence of guess submissions by the same player. -/
def applyGuesses (pid : String) (subs : List (String × String))
    (st : GameState) : GameState :=
  subs.foldl (fun s pr =>
    (submit_guess ⟨some pid, none, some pr.1, none, some pr.2⟩ s).2) st

/-- C6: after any sequence of successful guess submissions for the same
player, the stored guess equals the latest submission only (the guess
field is overwritten, never appended to). -/
theorem submit_guess_latest_only (pid : String) (subs : List (String × String))
    (st : GameState) (hp : pid ≠ "") (hne : subs ≠ [])
    (hall : ∀ pr ∈ subs, pr.1 ≠ "" ∧ pr.2 ≠ "") :
    ∃ e, stateLookup (applyGuesses pid subs st) pid = some e ∧
      e.guess = some ⟨(subs.getLast hne).1, (subs.getLast hne).1,
        (subs.getLast hne).2⟩ := by
  obtain ⟨hl1, hl2⟩ := hall (subs.getLast hne) (List.getLast_mem hne)
  have hsplit : subs.dropLast ++ [subs.getLast hne] = subs :=
    List.dropLast_concat_getLast hne
  have hfold : applyGuesses pid subs st =
      (submit_guess ⟨some pid, none, some (subs.getLast hne).1, none,
        some (subs.getLast hne).2⟩ (applyGuesses pid subs.dropLast st)).2 := by
    conv_lhs => rw [applyGuesses, ← hsplit]
    rw [List.foldl_append]
    rfl
  have hpid : pyOr (some pid) none = some pid := by simp [pyOr, pyTruthy, hp]
  have hacc : pyOr (some (subs.getLast hne).1) none =
      some (subs.getLast hne).1 := by simp [pyOr, pyTruthy, hl1]
  have hlook := submit_guess_lookup (some pid) none (some (subs.getLast hne).1)
    none (some (subs.getLast hne).2) (applyGuesses pid subs.dropLast st)
    (by simp [pyOr, pyTruthy, hp]) (by simp [pyOr, pyTruthy, hl1])
    (by simp [pyTruthy, hl2])
  rw [hpid, hacc] at hlook
  simp only [Option.getD_some] at hlook
  exact ⟨_, by rw [hfold]; exact hlook, rfl⟩

/-- Witness for C6: two submissions, only the second survives. -/
theorem submit_guess_latest_only_witness :
    ∃ e, stateLookup
        (applyGuesses "bob" [("alice", "m1"), ("carol", "m2")] []) "bob" =
        some e ∧
      e.guess = some ⟨"carol", "carol", "m2"⟩ := by
  have h := submit_guess_latest_only "bob" [("alice", "m1"), ("carol", "m2")]
    [] (by decide) (by decide) (by decide)
  exact h

/-- C9: frame property of the mutating endpoints: a successful
`mission_done` call rewrites only the named player's entry, and only its
mission_done field; a successful guess submission rewrites only the named
player's guess field; every other key is untouched, and lazy
initialization leaves a state with an existing entry unchanged. -/
theorem frame_effects (st : GameState) (dreq : DoneReq) (greq : GuessReq)
    (k : String) :
    ((stateLookup st k).isSome = true → ensure_player_state st k = st) ∧
    (pyTruthy (pyOr dreq.player_id dreq.player_display) = true →
      (∀ k2, k2 ≠ (pyOr dreq.player_id dreq.player_display).getD "" →
        stateLookup (mission_done dreq st).2 k2 = stateLookup st k2) ∧
      stateLookup (mission_done dreq st).2
          ((pyOr dreq.player_id dreq.player_display).getD "") =
        some { (stateLookup st
            ((pyOr dreq.player_id dreq.player_display).getD "")).getD
            defaultPlayerState with mission_done := true }) ∧
    (pyTruthy (pyOr greq.player_id greq.player_display) = true →
     pyTruthy (pyOr greq.accused_killer_id greq.accused_killer_display) = true →
     pyTruthy greq.guessed_mission = true →
      (∀ k2, k2 ≠ (pyOr greq.player_id greq.player_display).getD "" →
        stateLookup (submit_guess greq st).2 k2 = stateLookup st k2) ∧
      stateLookup (submit_guess greq st).2
          ((pyOr greq.player_id greq.player_display).getD "") =
        some { (stateLookup st
            ((pyOr greq.player_id greq.player_display).getD "")).getD
            defaultPlayerState with
          guess := some
            ⟨(pyOr greq.accused_killer_id greq.accused_killer_display).getD "",
             (pyOr greq.accused_killer_id greq.accused_killer_display).getD "",
             greq.guessed_mission.getD ""⟩ }) := by
  refine ⟨ensure_of_isSome, fun h => ⟨?_, ?_⟩, fun hp ha hm => ⟨?_, ?_⟩⟩
  · intro k2 hk2
    rw [mission_done_eq dreq st h]
    rw [stateLookup_set_other _ _ _ _ hk2, stateLookup_ensure_other _ _ _ hk2]
  · rw [mission_done_eq dreq st h]
    exact stateLookup_set_self _ (stateLookup_ensure_self _ _)
  · intro k2 hk2
    rw [submit_guess_eq greq st hp ha hm]
    rw [stateLookup_set_other _ _ _ _ hk2, stateLookup_ensure_other _ _ _ hk2]
  · rw [submit_guess_eq greq st hp ha hm]
    exact stateLookup_set_self _ (stateLookup_ensure_self _ _)

/-- Witness for C9: marking bob's mission leaves alice's entry alone. -/
theorem frame_effects_witness :
    stateLookup
      (mission_done ⟨some "bob", none⟩ [("alice", defaultPlayerState)]).2
      "alice" = some defaultPlayerState := by
  have h := frame_effects [("alice", defaultPlayerState)] ⟨some "bob", none⟩
    ⟨some "bob", none, some "k", none, some "m"⟩ "bob"
  have h2 := (h.2.1 (by decide)).1 "alice" (by decide)
  rw [h2]
  rfl

/-- C10: the mutating endpoints never consult the players or assignments
files: any non-empty identifier succeeds, a fresh default-based entry is
created under that exact string, and neither endpoint has a not-found
answer (every possible answer is ok or a missing-field 400). -/
theorem no_existence_check (st : GameState) (pid acc gm : String)
    (hp : pid ≠ "") (ha : acc ≠ "") (hm : gm ≠ "") :
    (mission_done ⟨some pid, none⟩ st).1 = .ok true ∧
    (submit_guess ⟨some pid, none, some acc, none, some gm⟩ st).1 = .success ∧
    (stateLookup st pid = none →
      stateLookup (mission_done ⟨some pid, none⟩ st).2 pid =
        some { defaultPlayerState with mission_done := true } ∧
      stateLookup (submit_guess ⟨some pid, none, some acc, none, some gm⟩ st).2
          pid =
        some { defaultPlayerState with guess := some ⟨acc, acc, gm⟩ }) ∧
    (∀ (r : DoneReq) (s : GameState), (mission_done r s).1 = .ok true ∨
      (mission_done r s).1 = .badRequest "Missing player_id") ∧
    (∀ (r : GuessReq) (s : GameState), (submit_guess r s).1 = .success ∨
      (submit_guess r s).1 = .badRequest "Missing player_id" ∨
      (submit_guess r s).1 = .badRequest "Missing accused_killer_id" ∨
      (submit_guess r s).1 = .badRequest "Missing guessed_mission") := by
  have hp2 : pyTruthy (pyOr (some pid) none) = true := by
    simp [pyOr, pyTruthy, hp]
  have ha2 : pyTruthy (pyOr (some acc) none) = true := by
    simp [pyOr, pyTruthy, ha]
  have hm2 : pyTruthy (some gm) = true := by simp [pyTruthy, hm]
  have hpid : pyOr (some pid) none = some pid := by simp [pyOr, pyTruthy, hp]
  have hacc : pyOr (some acc) none = some acc := by simp [pyOr, pyTruthy, ha]
  refine ⟨?_, ?_, ?_, ?_, ?_⟩
  · rw [mission_done_eq ⟨some pid, none⟩ st hp2]
  · rw [submit_guess_eq ⟨some pid, none, some acc, none, some gm⟩ st hp2 ha2 hm2]
  · intro h0
    constructor
    · have hml := mission_done_lookup (some pid) none st hp2
      rw [hpid] at hml
      simp only [Option.getD_some, h0, Option.getD_none] at hml
      exact hml
    · have hsl := submit_guess_lookup (some pid) none (some acc) none (some gm)
        st hp2 ha2 hm2
      rw [hpid, hacc] at hsl
      simp only [Option.getD_some, h0, Option.getD_none] at hsl
      exact hsl
  · intro r s
    cases h : pyTruthy (pyOr r.player_id r.player_display)
    · right; simp [mission_done, h]
    · left; rw [mission_done_eq r s h]
  · intro r s
    cases h1 : pyTruthy (pyOr r.player_id r.player_display)
    · right; left; simp [submit_guess, h1]
    · cases h2 : pyTruthy (pyOr r.accused_killer_id r.accused_killer_display)
      · right; right; left; simp [submit_guess, h1, h2]
      · cases h3 : pyTruthy r.guessed_mission
        · right; right; right; simp [submit_guess, h1, h2, h3]
        · left; rw [submit_guess_eq r s h1 h2 h3]

/-- Witness for C10: an identifier naming no known player still succeeds
and creates its entry. -/
theorem no_existence_check_witness :
    (mission_done ⟨some "ghost", none⟩ []).1 = .ok true ∧
    stateLookup (mission_done ⟨some "ghost", none⟩ []).2 "ghost" =
      some { defaultPlayerState with mission_done := true } := by
  have h := no_existence_check [] "ghost" "k" "m" (by decide) (by decide)
    (by decide)
  exact ⟨h.1, (h.2.2.1 rfl).1⟩

/-- C3: a non-empty player query matches the first assignment whose killer
normalizes like it, the state for that killer is initialized and
persisted, and the answer carries that killer's identity, mission text,
target display and current mission-done flag; with no match the answer is
the not-found error and the state is untouched. -/
theorem get_mission_match (p : String) (assignments : List Assignment)
    (st : GameState) (hp : p ≠ "") :
    (∀ a, assignments.find? (fun x => normalize x.killer == normalize p) =
        some a →
      ∃ e, stateLookup (ensure_player_state st a.killer) a.killer = some e ∧
        e = (stateLookup st a.killer).getD defaultPlayerState ∧
        get_mission (some p) assignments st =
          (.ok a.killer a.killer (a.mission.getD "—") (a.target.getD "—")
            e.mission_done,
           ensure_player_state st a.killer)) ∧
    (assignments.find? (fun x => normalize x.killer == normalize p) = none →
      get_mission (some p) assignments st =
        (.notFound "Player not found", st)) := by
  have hpt : pyTruthy (some p) = true := by simp [pyTruthy, hp]
  constructor
  · intro a hf
    refine ⟨_, stateLookup_ensure_self st a.killer, rfl, ?_⟩
    simp [get_mission, hpt, hf, stateLookup_ensure_self]
  · intro hf
    simp [get_mission, hpt, hf]

/-- Witness for C3: `player=elodie` reaches the assignment whose killer is
`"Élodie"`. -/
theorem get_mission_match_witness :
    ([⟨"Élodie", some "m", some "T"⟩] : List Assignment).find?
        (fun x => normalize x.killer == normalize "elodie") =
      some ⟨"Élodie", some "m", some "T"⟩ ∧
    get_mission (some "elodie") [⟨"Élodie", some "m", some "T"⟩] [] =
      (.ok "Élodie" "Élodie" "m" "T" false,
       [("Élodie", defaultPlayerState)]) := by
  have hf : ([⟨"Élodie", some "m", some "T"⟩] : List Assignment).find?
      (fun x => normalize x.killer == normalize "elodie") =
      some ⟨"Élodie", some "m", some "T"⟩ := by rfl
  have h := (get_mission_match "elodie" [⟨"Élodie", some "m", some "T"⟩] []
    (by decide)).1 ⟨"Élodie", some "m", some "T"⟩ hf
  obtain ⟨e, he1, he2, he3⟩ := h
  refine ⟨hf, ?_⟩
  rw [he3]
  have he4 : e = defaultPlayerState := by rw [he2]; rfl
  rw [he4]
  rfl

/-- C1 fails as stated: `leaderboard` skips a players entry whose id is
missing or empty, so the row count can be smaller than the players file
length; here one player produces zero rows. -/
theorem leaderboard_count_counterexample :
    (leaderboard [⟨some ""⟩] []).length ≠
      ([⟨some ""⟩] : List PlayerRec).length := by
  decide

/-- C1 (amended): one row per players-file element whose id is present and
non-empty, in file order, and a player with no state entry yields the
default zero/false row with null guess fields. -/
theorem leaderboard_rows (players : List PlayerRec) (st : GameState) :
    leaderboard players st =
      (players.filter (fun q => pyTruthy q.id)).map
        (fun q => rowFor st (q.id.getD "")) ∧
    ∀ name, stateLookup st name = none →
      rowFor st name = ⟨name, 0, false, false, false, none, none⟩ := by
  constructor
  · induction players with
    | nil => rfl
    | cons q rest ih =>
        obtain ⟨oid⟩ := q
        cases oid with
        | none => simpa [leaderboard, List.filter_cons, pyTruthy] using ih
        | some name =>
            by_cases hname : name = ""
            · subst hname
              simpa [leaderboard, List.filter_cons, pyTruthy] using ih
            · simp only [leaderboard, List.filterMap_cons] at ih ⊢
              simp [List.filter_cons, pyTruthy, hname, ih]
  · intro name h
    simp [rowFor, h]

/-- Witness for C1 (amended) at a concrete players file and empty state. -/
theorem leaderboard_rows_witness :
    leaderboard [⟨some "bob"⟩] [] =
      [⟨"bob", 0, false, false, false, none, none⟩] := by
  have h := leaderboard_rows [⟨some "bob"⟩] []
  have h2 := h.2 "bob" rfl
  calc leaderboard [⟨some "bob"⟩] []
      = (([⟨some "bob"⟩] : List PlayerRec).filter (fun q => pyTruthy q.id)).map
          (fun q => rowFor [] (q.id.getD "")) := h.1
    _ = [rowFor [] "bob"] := by rfl
    _ = [⟨"bob", 0, false, false, false, none, none⟩] := by rw [h2]

end App
